import Mathlib

/-!
Verification of the three-stage price-inflation pipeline
(extraction → cleaning → analysis).

Machine floats are modelled as exact rationals (ℚ); Python's
`round(x, 2)` is modelled as exact round-half-to-even to two decimal
places; `math`/`statistics` square roots are modelled as the exact real
square root.  String predicates (`str.isdigit`, `str.lower`, `\s`, `\d`)
are modelled over their ASCII behaviour, which covers every string
constant appearing in the sources.
-/

/-! ## Python string helpers -/

/-- Python whitespace characters (`str.strip`, regex `\s`), ASCII range. -/
def pyIsSpace (c : Char) : Bool :=
  c = ' ' || c = '\t' || c = '\n' || c = '\r' || c = '\x0b' || c = '\x0c'

/-- Strip leading and trailing whitespace from a character list. -/
def stripChars (cs : List Char) : List Char :=
  ((cs.dropWhile pyIsSpace).reverse.dropWhile pyIsSpace).reverse

/-- Python `str.strip()`. -/
def pyStrip (s : String) : String :=
  String.mk (stripChars s.toList)

/-- Python `str.lower()` (ASCII letters, which covers the sources' constants). -/
def pyLower (s : String) : String :=
  String.mk (s.toList.map Char.toLower)

/-- Python `str.isdigit()`: non-empty and every character a digit. -/
def pyIsDigit (s : String) : Bool :=
  !s.toList.isEmpty && s.toList.all Char.isDigit

/-- Consume a maximal run of decimal digits, returning
(value, number of digits, remaining characters). -/
def digitsAux : List Char → ℕ → ℕ → ℕ × ℕ × List Char
  | [], v, n => (v, n, [])
  | c :: cs, v, n =>
    if c.isDigit then digitsAux cs (10 * v + (c.toNat - 48)) (n + 1)
    else (v, n, c :: cs)

/-- Syntactic part of Python `float(s)` on decimal literals: optional
sign, digits with an optional fractional part, optional exponent,
returned as (sign, integer part, fractional part, number of fractional
digits, exponent).  (The `inf`/`nan` words and digit-group underscores,
never produced by this pipeline, are not modelled and yield `none`.) -/
def pyFloatParts? (s : String) : Option (ℤ × ℕ × ℕ × ℕ × ℤ) :=
  let sgncs : ℤ × List Char :=
    match stripChars s.toList with
    | '+' :: r => (1, r)
    | '-' :: r => (-1, r)
    | r => (1, r)
  let ipr := digitsAux sgncs.2 0 0
  let fpr : ℕ × ℕ × List Char :=
    match ipr.2.2 with
    | '.' :: r => digitsAux r 0 0
    | r => (0, 0, r)
  if ipr.2.1 + fpr.2.1 = 0 then none
  else
    match fpr.2.2 with
    | [] => some (sgncs.1, ipr.1, fpr.1, fpr.2.1, 0)
    | c :: r =>
      if c = 'e' || c = 'E' then
        let esgnr : ℤ × List Char :=
          match r with
          | '+' :: r2 => (1, r2)
          | '-' :: r2 => (-1, r2)
          | r2 => (1, r2)
        let epr := digitsAux esgnr.2 0 0
        if epr.2.1 = 0 || !epr.2.2.isEmpty then none
        else some (sgncs.1, ipr.1, fpr.1, fpr.2.1, esgnr.1 * (epr.1 : ℤ))
      else none

/-- Python `float(s)` on decimal literals, as an exact rational. -/
def pyFloat? (s : String) : Option ℚ :=
  (pyFloatParts? s).map
    (fun pr => (pr.1 : ℚ) * ((pr.2.1 : ℚ) + (pr.2.2.1 : ℚ) / (10 : ℚ) ^ pr.2.2.2.1) *
      (10 : ℚ) ^ pr.2.2.2.2)

/-! ## Rounding (Python `round(x, 2)`: half-to-even) -/

/-- Round a rational to the nearest integer, ties to even
(`x.num / x.den` is `⌊x⌋`: Euclidean division, positive denominator). -/
def roundHalfEven (x : ℚ) : ℤ :=
  let f : ℤ := x.num / (x.den : ℤ)
  if x - f < 1 / 2 then f
  else if (1 / 2 : ℚ) < x - f then f + 1
  else if f % 2 = 0 then f else f + 1

/-- Python `round(x, 2)` over exact rationals. -/
def roundq2 (x : ℚ) : ℚ :=
  ((roundHalfEven (x * 100) : ℤ) : ℚ) / 100

/-- Round a real to the nearest integer, ties to even. -/
noncomputable def roundHalfEvenR (x : ℝ) : ℤ :=
  let f := ⌊x⌋
  if x - f < 1 / 2 then f
  else if (1 / 2 : ℝ) < x - f then f + 1
  else if f % 2 = 0 then f else f + 1

/-- Python `round(x, 2)` over reals (used for the stdev channel). -/
noncomputable def roundR2 (x : ℝ) : ℝ :=
  ((roundHalfEvenR (x * 100) : ℤ) : ℝ) / 100

/-- A value is an exact multiple of 1/100, i.e. "rounded to 2 decimals". -/
def isCent (x : ℚ) : Prop := ∃ k : ℤ, x = (k : ℚ) / 100

/-- Real-number version of `isCent`. -/
def isCentR (x : ℝ) : Prop := ∃ k : ℤ, x = (k : ℝ) / 100

/-! ## Stage 3: `Analysis.py` -/

/-- `statistics.mean` (exact). -/
def mean (l : List ℚ) : ℚ := l.sum / l.length

/-- Python `max` over a non-empty list (0 on `[]`, unreachable in source). -/
def listMax : List ℚ → ℚ
  | [] => 0
  | x :: xs => xs.foldl max x

/-- Python `min` over a non-empty list (0 on `[]`, unreachable in source). -/
def listMin : List ℚ → ℚ
  | [] => 0
  | x :: xs => xs.foldl min x

/-- Sample variance with denominator `n - 1`; `statistics.stdev` is its
square root. -/
def sampleVariance (l : List ℚ) : ℚ :=
  (l.map (fun x => (x - mean l) ^ 2)).sum / ((l.length : ℚ) - 1)

/-- Output record of `calculate_statistics`. -/
structure SegmentStats where
  average : Option ℚ
  max : Option ℚ
  min : Option ℚ
  stdev : Option ℝ

/-- `Analysis.calculate_statistics` (lines 22–33): empty list gives all
`None`; otherwise mean/max/min rounded to 2 decimals and the sample
standard deviation rounded to 2 decimals when more than one sample is
present, else `0.0`. -/
noncomputable def calculate_statistics (prices : List ℚ) : SegmentStats :=
  if prices = [] then ⟨none, none, none, none⟩
  else
    { average := some (roundq2 (mean prices))
      max := some (roundq2 (listMax prices))
      min := some (roundq2 (listMin prices))
      stdev := some (if 1 < prices.length then roundR2 (Real.sqrt (sampleVariance prices)) else 0) }

/-- Price tiers. -/
inductive Tier where
  | low
  | mid
  | high
deriving DecidableEq

def LOW_PRICE_THRESHOLD : ℚ := 300
def MID_PRICE_THRESHOLD : ℚ := 700

/-- The segmentation branch of `analyze_data` (lines 74–80) applied to a
single price, as the tier it lands in (none: the price falls through all
three branches). -/
def tierOf (price : ℚ) : Option Tier :=
  if 100 ≤ price ∧ price ≤ LOW_PRICE_THRESHOLD then some .low
  else if LOW_PRICE_THRESHOLD < price ∧ price ≤ MID_PRICE_THRESHOLD then some .mid
  else if MID_PRICE_THRESHOLD < price then some .high
  else none

/-- A record as read by `analyze_data`: `fetch_time` string or absent/null,
`price` number or absent/null (the cleaned dataset holds only numeric
prices). -/
structure ARecord where
  fetch_time : Option String
  price : Option ℚ

/-- One iteration of the segmentation loop of `analyze_data` (lines
62–80): skip on missing/falsy `fetch_time` or missing `price`, otherwise
append the price to its year's tier list. -/
def addRecord (m : String → Tier → List ℚ) (r : ARecord) : String → Tier → List ℚ :=
  match r.fetch_time with
  | none => m
  | some ft =>
    if ft = "" then m
    else
      match r.price with
      | none => m
      | some p =>
        match tierOf p with
        | none => m
        | some t => fun y t2 => if y = ft.take 4 ∧ t2 = t then m y t2 ++ [p] else m y t2

/-- `yearly_price_segments` of `analyze_data`, as a total map from year
and tier to the list of prices (the `defaultdict` default is `[]`). -/
def yearly_price_segments (records : List ARecord) : String → Tier → List ℚ :=
  records.foldl addRecord (fun _ _ => [])

/-- The inflation value recorded for one (year, segment) cell
(`analyze_data` lines 96–106): a rounded rate when both averages are
present and the previous one is nonzero, else `None`. -/
def inflationValue (prev_avg curr_avg : Option ℚ) : Option ℚ :=
  match prev_avg, curr_avg with
  | some p, some c => if p ≠ 0 then some (roundq2 ((c - p) / p * 100)) else none
  | _, _ => none

/-- The analysis sentences appended by `analyze_data` (lines 101–104),
with the interpolated values kept structured. -/
inductive Sentence where
  | increased (previous_year current_year : String) (amount : ℚ) (segment : Tier)
  | decreased (previous_year current_year : String) (amount : ℚ) (segment : Tier)
deriving DecidableEq

/-- The sentence (if any) appended for one (year pair, segment) cell:
increase sentences carry `round(rate, 2)`, decrease sentences
`round(abs(rate), 2)`, and a rate of exactly zero appends nothing. -/
def sentenceFor (py cy : String) (seg : Tier) (prev_avg curr_avg : Option ℚ) : Option Sentence :=
  match prev_avg, curr_avg with
  | some p, some c =>
    if p ≠ 0 then
      let rate := (c - p) / p * 100
      if 0 < rate then some (.increased py cy (roundq2 rate) seg)
      else if rate < 0 then some (.decreased py cy (roundq2 |rate|) seg)
      else none
    else none
  | _, _ => none

/-- The iteration order of the inner segment loop. -/
def tiers : List Tier := [.low, .mid, .high]

/-- Consecutive pairs of a list, in order. -/
def consecutivePairs {α : Type} : List α → List (α × α)
  | a :: b :: rest => (a, b) :: consecutivePairs (b :: rest)
  | _ => []

/-- `sorted(yearly_segment_summary.keys())`. -/
def sortedYears (years : List String) : List String :=
  List.insertionSort (fun a b => a ≤ b) years

/-- The `inflation_summary` table of `analyze_data` (lines 88–106), keyed
by current year, given the year-key list and the per-year per-tier
averages. -/
def inflation_summary (years : List String) (stats : String → Tier → Option ℚ) :
    List (String × (Tier → Option ℚ)) :=
  (consecutivePairs (sortedYears years)).map
    (fun pr => (pr.2, fun seg => inflationValue (stats pr.1 seg) (stats pr.2 seg)))

/-- The `inflation_analysis` sentence list of `analyze_data`
(lines 88–106), in iteration order. -/
def inflation_analysis (years : List String) (stats : String → Tier → Option ℚ) :
    List Sentence :=
  (consecutivePairs (sortedYears years)).flatMap
    (fun pr => tiers.filterMap (fun seg => sentenceFor pr.1 pr.2 seg (stats pr.1 seg) (stats pr.2 seg)))

/-! ## Stage 2: `Final_cleaning.py` -/

/-- A JSON scalar as it appears in the `price` / `fetch_time` fields. -/
inductive JVal where
  | num (q : ℚ)
  | str (s : String)
  | null
deriving DecidableEq

/-- One parsed JSON-line record: `none` fields stand for absent keys.
`title` is a string when present (stage 1 only ever emits string
titles). -/
structure Item where
  title : Option String
  price : Option JVal
  fetch_time : Option JVal
deriving DecidableEq

/-- `item['price'].replace('$', '').replace(',', '').strip()`
(`clean_data` line 29): replacing a single character by the empty
string removes every occurrence of it. -/
def stripPrice (s : String) : String :=
  pyStrip (String.mk ((s.toList.filter (fun c => c ≠ '$')).filter (fun c => c ≠ ',')))

/-- Price normalization of `clean_data` (lines 28–35): only string
prices are touched; the stripped string is converted by `float` only
when it is all digits or contains a dot, with `None` on conversion
failure; otherwise the stripped string itself is kept. -/
def normalizePrice (v : JVal) : JVal :=
  match v with
  | .str s =>
    let s2 := stripPrice s
    if pyIsDigit s2 || s2.toList.contains '.' then
      match pyFloat? s2 with
      | some q => .num q
      | none => .null
    else .str s2
  | v => v

/-- Fetch-time normalization of `clean_data` (lines 38–43),
parameterized by the out-of-scope `dateutil` parser `pd` (`none` models
a `ValueError`).  A falsy value is left unchanged; a truthy non-string
raises `TypeError`, caught and replaced by `None`. -/
def normalizeFetchTime (pd : String → Option String) (v : JVal) : JVal :=
  match v with
  | .str s =>
    if s ≠ "" then
      match pd s with
      | some iso => .str iso
      | none => .null
    else .str s
  | .num q => if q ≠ 0 then .null else .num q
  | .null => .null

/-- The exact-match rejected titles (`clean_data` lines 46–47). -/
def errorTitles : List String :=
  ["301 Moved Permanently", "Robot Check", "Sorry! Something went wrong!", "No Title Found"]

/-- The lowercase-match rejected titles (`clean_data` lines 48–50). -/
def promoTitles : List String :=
  ["amazon prime", "amazon prime day", "prime", "amazon best sellers", "best sellers",
   "cyber monday", "black friday", "error page"]

/-- The excluded mistaken-calendar-year price values (`clean_data` line 51). -/
def excludedPriceValues : List ℚ := [2020, 2021, 2022, 2023, 2024, 1996]

/-- The price conjunct of the filter (`clean_data` line 51):
`'price' not in item or (isinstance(item['price'], (int, float)) and
item['price'] >= 99 and item['price'] not in [...])`. -/
def priceOk (price : Option JVal) : Bool :=
  match price with
  | none => true
  | some (.num q) => decide (99 ≤ q) && !excludedPriceValues.contains q
  | some _ => false

/-- The full filter condition of `clean_data` (lines 46–51), applied to
the (present) title and the normalized price field. -/
def keepItem (title : String) (price : Option JVal) : Bool :=
  !errorTitles.contains title && !promoTitles.contains (pyLower title) && priceOk price

/-- Field normalization of one record (`clean_data` lines 28–43). -/
def normalizeItem (pd : String → Option String) (it : Item) : Item :=
  { title := it.title
    price := (it.price).map normalizePrice
    fetch_time := (it.fetch_time).map (normalizeFetchTime pd) }

/-- Processing of one well-formed JSON line (`clean_data` lines 25–52):
normalize, then filter.  The title lookup `item['title']` raises an
uncaught `KeyError` when the key is absent, modelled as `Except.error`. -/
def processItem (pd : String → Option String) (it : Item) : Except Unit (Option Item) :=
  let it2 := normalizeItem pd it
  match it2.title with
  | none => .error ()
  | some t => .ok (if keepItem t it2.price then some it2 else none)

/-- `clean_data` over the concatenated lines of all input files.  A line
is `none` when `json.loads` raises `JSONDecodeError` (caught: the line
is skipped); an uncaught exception aborts the stage before the output
file is written, so no survivor list is produced. -/
def clean_data (pd : String → Option String) : List (Option Item) → Except Unit (List Item)
  | [] => .ok []
  | line :: rest =>
    match line with
    | none => clean_data pd rest
    | some it =>
      match processItem pd it with
      | .error e => .error e
      | .ok keep =>
        match clean_data pd rest with
        | .error e => .error e
        | .ok out =>
          .ok (match keep with
               | some x => x :: out
               | none => out)

/-! ## Stage 1: `final_data_extraction_s3.py` -/

/-- Regex-search helper: drop everything up to and including the first
occurrence of `pat`; `none` when `pat` does not occur. -/
def splitAfterFirst (pat : List Char) : List Char → Option (List Char)
  | [] => if pat.isEmpty then some [] else none
  | c :: cs =>
    if pat.isPrefixOf (c :: cs) then some ((c :: cs).drop pat.length)
    else splitAfterFirst pat cs

/-- `re.search(r'Title:\s*(.*)', text)`, returning capture group 1: the
first occurrence of `Title:` is followed by a greedy whitespace run
(newlines included), and the group is the rest of that line. -/
def titleRegexSearch (text : String) : Option String :=
  match splitAfterFirst "Title:".toList text.toList with
  | none => none
  | some rest =>
    some (String.mk ((rest.dropWhile (fun c => pyIsSpace c)).takeWhile (fun c => c ≠ '\n')))

/-- First match of the digits-dot-two-digits price pattern: the first
maximal digit run, extended by a dot and two digits when they follow. -/
def priceRegexAux : List Char → Option String
  | [] => none
  | c :: rest =>
    if c.isDigit then
      let ds := (c :: rest).takeWhile Char.isDigit
      match (c :: rest).drop ds.length with
      | '.' :: d1 :: d2 :: _ =>
        if d1.isDigit && d2.isDigit then some (String.mk (ds ++ ['.', d1, d2]))
        else some (String.mk ds)
      | _ => some (String.mk ds)
    else priceRegexAux rest

/-- The price regex search of `extract_product_data` (lines 83–84). -/
def priceRegexSearch (text : String) : Option String :=
  priceRegexAux text.toList

/-- A parsed page, as the query results of each extraction strategy of
`extract_product_data`: for each selector, the raw `get_text()` of the
matched element (`none` when no element matches), plus the visible text
used by the regex fallbacks. -/
structure Page where
  productTitle : Option String
  btAsinTitle : Option String
  h1TitleClass : Option String
  docTitle : Option String
  firstH1 : Option String
  priceBlock : Option String
  priceWhole : Option String
  priceClass : Option String
  priceBuybox : Option String
  visibleText : String

/-- The title fallback chain of `extract_product_data` (lines 55–70):
the branch taken is the first whose element is present. -/
def titleOf (p : Page) : String :=
  match p.productTitle with
  | some t => pyStrip t
  | none =>
  match p.btAsinTitle with
  | some t => pyStrip t
  | none =>
  match p.h1TitleClass with
  | some t => pyStrip t
  | none =>
  match p.docTitle with
  | some t => pyStrip t
  | none =>
  match p.firstH1 with
  | some t => pyStrip t
  | none =>
  match titleRegexSearch p.visibleText with
  | some m => pyStrip m
  | none => ""

/-- The price fallback chain of `extract_product_data` (lines 72–86):
the branch taken is the first whose element is present; the regex
result is used without stripping (`match.group()`). -/
def priceOf (p : Page) : String :=
  match p.priceBlock with
  | some t => pyStrip t
  | none =>
  match p.priceWhole with
  | some t => pyStrip t
  | none =>
  match p.priceClass with
  | some t => pyStrip t
  | none =>
  match p.priceBuybox with
  | some t => pyStrip t
  | none =>
  match priceRegexSearch p.visibleText with
  | some m => m
  | none => ""

/-- The dictionary returned by `extract_product_data`. -/
structure ExtractedData where
  title : String
  price : String
deriving DecidableEq

/-- `extract_product_data` (lines 51–92): run both chains and replace an
empty (falsy) result by the sentinel default. -/
def extract_product_data (p : Page) : ExtractedData :=
  let title := titleOf p
  let price := priceOf p
  { title := if title = "" then "No Title Found" else title
    price := if price = "" then "No Price Found" else price }

/-- The `product_data` dictionary built per row in
`process_parquet_files` (lines 128–140): `url` always added,
`fetch_time` added only when the row's value is truthy, holding the
parsed ISO string or `None` on `ValueError`. -/
structure ProductData where
  title : String
  price : String
  url : String
  fetch_time : Option (Option String)

/-- Build the per-row record (`process_parquet_files` lines 128–140),
parameterized by the out-of-scope fixed-format timestamp parser. -/
def buildProductData (parseFixed : String → Option String) (p : Page) (url : String)
    (ft : Option String) : ProductData :=
  let e := extract_product_data p
  { title := e.title
    price := e.price
    url := url
    fetch_time :=
      match ft with
      | none => none
      | some s => if s = "" then none else some (parseFixed s) }

/-- `any(product_data.values())` (line 142): some dictionary value is
truthy. -/
def anyValues (d : ProductData) : Bool :=
  d.title != "" || d.price != "" || d.url != "" ||
    (match d.fetch_time with
     | some (some s) => s != ""
     | _ => false)

/-! ## Helper lemmas -/

theorem roundHalfEven_floor_cases (x : ℚ) :
    roundHalfEven x =
      if x - ⌊x⌋ < 1 / 2 then ⌊x⌋
      else if (1 / 2 : ℚ) < x - ⌊x⌋ then ⌊x⌋ + 1
      else if ⌊x⌋ % 2 = 0 then ⌊x⌋ else ⌊x⌋ + 1 := by
  simp only [roundHalfEven, ← Rat.floor_def]

theorem roundq2_eq_down {r : ℚ} {f : ℤ} (hf : ⌊r * 100⌋ = f) (h : r * 100 - f < 1 / 2) :
    roundq2 r = (f : ℚ) / 100 := by
  rw [roundq2, roundHalfEven_floor_cases, hf, if_pos h]

theorem roundq2_eq_up {r : ℚ} {f : ℤ} (hf : ⌊r * 100⌋ = f) (h : 1 / 2 < r * 100 - f) :
    roundq2 r = ((f + 1 : ℤ) : ℚ) / 100 := by
  rw [roundq2, roundHalfEven_floor_cases, hf, if_neg (by linarith), if_pos h]

theorem roundq2_eq_tie_even {r : ℚ} {f : ℤ} (hf : ⌊r * 100⌋ = f) (h : r * 100 - f = 1 / 2)
    (he : f % 2 = 0) : roundq2 r = (f : ℚ) / 100 := by
  rw [roundq2, roundHalfEven_floor_cases, hf, if_neg (by rw [h]; exact lt_irrefl _),
    if_neg (by rw [h]; exact lt_irrefl _), if_pos he]

theorem roundq2_cent (k : ℤ) : roundq2 ((k : ℚ) / 100) = (k : ℚ) / 100 := by
  have h100 : ((k : ℚ) / 100) * 100 = (k : ℚ) := by field_simp
  rw [roundq2_eq_down (f := k) (by rw [h100]; exact Int.floor_intCast k) (by rw [h100]; norm_num)]

theorem isCent_roundq2 (x : ℚ) : isCent (roundq2 x) :=
  ⟨roundHalfEven (x * 100), rfl⟩

theorem isCentR_roundR2 (x : ℝ) : isCentR (roundR2 x) :=
  ⟨roundHalfEvenR (x * 100), rfl⟩

theorem mem_foldl_addRecord (records : List ARecord) (m : String → Tier → List ℚ)
    (hm : ∀ y t p, p ∈ m y t → tierOf p = some t) :
    ∀ y t p, p ∈ records.foldl addRecord m y t → tierOf p = some t := by
  induction records generalizing m with
  | nil => simpa using hm
  | cons r rs ih =>
    rw [List.foldl_cons]
    refine ih (addRecord m r) ?_
    intro y t p hp
    obtain ⟨oft, opr⟩ := r
    cases oft with
    | none => exact hm _ _ _ hp
    | some ft =>
      simp only [addRecord] at hp
      by_cases hb : ft = ""
      · rw [if_pos hb] at hp; exact hm _ _ _ hp
      · rw [if_neg hb] at hp
        cases opr with
        | none => exact hm _ _ _ hp
        | some pv =>
          have hp2 : p ∈ (match tierOf pv with
              | none => m
              | some t =>
                fun y t2 => if y = ft.take 4 ∧ t2 = t then m y t2 ++ [pv] else m y t2) y t := hp
          cases htier : tierOf pv with
          | none => simp only [htier] at hp2; exact hm _ _ _ hp2
          | some tv =>
            simp only [htier] at hp2
            by_cases hc : y = ft.take 4 ∧ t = tv
            · rw [if_pos hc] at hp2
              rcases List.mem_append.1 hp2 with hin | hin
              · exact hm _ _ _ hin
              · rw [List.mem_singleton.1 hin, hc.2]; exact htier
            · rw [if_neg hc] at hp2; exact hm _ _ _ hp2

/-! ## Claims -/

/-- C1: the Segmenter assigns a numeric price to exactly one tier of its
year bucket by fixed thresholds: low iff 100 ≤ p ≤ 300, mid iff
300 < p ≤ 700, high iff p > 700, and no tier at all iff p < 100; every
price stored in a year bucket is in the tier these thresholds pick. -/
theorem segmenter_tier_assignment :
    (∀ p : ℚ,
      (tierOf p = some Tier.low ↔ 100 ≤ p ∧ p ≤ 300) ∧
      (tierOf p = some Tier.mid ↔ 300 < p ∧ p ≤ 700) ∧
      (tierOf p = some Tier.high ↔ 700 < p) ∧
      (tierOf p = none ↔ p < 100)) ∧
    (∀ (records : List ARecord) (y : String) (t : Tier) (p : ℚ),
      p ∈ yearly_price_segments records y t → tierOf p = some t) := by
  constructor
  · intro p
    simp only [tierOf, LOW_PRICE_THRESHOLD, MID_PRICE_THRESHOLD]
    split_ifs with h1 h2 h3
    · exact ⟨⟨fun _ => h1, fun _ => rfl⟩,
        ⟨fun hh => absurd hh (by decide), fun hh => absurd hh.1 (not_lt.2 h1.2)⟩,
        ⟨fun hh => absurd hh (by decide), fun hh => absurd hh (not_lt.2 (by linarith [h1.2]))⟩,
        ⟨fun hh => absurd hh (by decide), fun hh => absurd h1.1 (not_le.2 hh)⟩⟩
    · exact ⟨⟨fun hh => absurd hh (by decide), fun hh => absurd hh.2 (not_le.2 h2.1)⟩,
        ⟨fun _ => h2, fun _ => rfl⟩,
        ⟨fun hh => absurd hh (by decide), fun hh => absurd hh (not_lt.2 h2.2)⟩,
        ⟨fun hh => absurd hh (by decide), fun hh => absurd h2.1 (not_lt.2 (by linarith))⟩⟩
    · exact ⟨⟨fun hh => absurd hh (by decide), fun hh => absurd hh.2 (not_le.2 (by linarith))⟩,
        ⟨fun hh => absurd hh (by decide), fun hh => absurd hh.2 (not_le.2 h3)⟩,
        ⟨fun _ => h3, fun _ => rfl⟩,
        ⟨fun hh => absurd hh (by decide), fun hh => absurd hh (not_lt.2 (by linarith))⟩⟩
    · push_neg at h1 h2 h3
      have hlt : p < 100 := by
        by_contra hge
        push_neg at hge
        linarith [h1 hge, h2 (h1 hge)]
      exact ⟨⟨fun hh => absurd hh (by decide), fun hh => absurd hh.1 (not_le.2 hlt)⟩,
        ⟨fun hh => absurd hh (by decide), fun hh => absurd hh.1 (not_lt.2 (by linarith))⟩,
        ⟨fun hh => absurd hh (by decide), fun hh => absurd hh (not_lt.2 (by linarith))⟩,
        ⟨fun _ => hlt, fun _ => rfl⟩⟩
  · intro records y t p hp
    exact mem_foldl_addRecord records (fun _ _ => []) (by simp) y t p hp

/-- Witness for C1 at a concrete record list. -/
theorem segmenter_tier_assignment_witness : tierOf 150 = some Tier.low :=
  segmenter_tier_assignment.2 [⟨some "2023-01-05T10:00:00", some 150⟩] "2023" Tier.low 150
    (by decide)

/-- C2: the Filter retains a titled record iff the title is not a known
error string, its lowercase is not a promotional string, and the price
is absent or numeric, at least 99 and not a mistaken calendar year; a
record titled "black friday" in any casing is rejected regardless of
price, and price 2021 is rejected for every title. -/
theorem filter_retention_iff :
    (∀ (title : String) (price : Option JVal),
      keepItem title price = true ↔
        title ∉ errorTitles ∧ pyLower title ∉ promoTitles ∧
          (price = none ∨
            ∃ q : ℚ, price = some (.num q) ∧ 99 ≤ q ∧ q ∉ excludedPriceValues)) ∧
    (∀ (title : String) (price : Option JVal),
      pyLower title = "black friday" → keepItem title price = false) ∧
    (∀ title : String, keepItem title (some (.num 2021)) = false) := by
  have hiff : ∀ (title : String) (price : Option JVal),
      keepItem title price = true ↔
        title ∉ errorTitles ∧ pyLower title ∉ promoTitles ∧
          (price = none ∨
            ∃ q : ℚ, price = some (.num q) ∧ 99 ≤ q ∧ q ∉ excludedPriceValues) := by
    intro title price
    simp only [keepItem, Bool.and_eq_true, Bool.not_eq_true', ← Bool.not_eq_true,
      List.elem_iff, and_assoc, and_congr_right_iff]
    intro _ _
    cases price with
    | none => simp [priceOk]
    | some v =>
      cases v with
      | num q => simp [priceOk, List.elem_iff, decide_eq_true_iff]
      | str s => simp [priceOk]
      | null => simp [priceOk]
  refine ⟨hiff, ?_, ?_⟩
  · intro title price h
    simp [keepItem, h, promoTitles]
  · intro title
    have hfalse : ¬ keepItem title (some (.num 2021)) = true := by
      rw [hiff]
      rintro ⟨-, -, hpr | ⟨q, hq, -, hnot⟩⟩
      · exact Option.noConfusion hpr
      · have hq2021 : (2021 : ℚ) = q := JVal.num.inj (Option.some.inj hq)
        exact hnot (by rw [← hq2021]; norm_num [excludedPriceValues])
    simpa using hfalse

/-- Witness for C2 at a concrete mixed-case title. -/
theorem filter_retention_iff_witness : keepItem "BLACK friday" (some (.num 500)) = false :=
  filter_retention_iff.2.1 "BLACK friday" (some (.num 500)) (by decide)

/-- C3 counterexample: `calculate_statistics` rounds even a singleton,
so its average is not the sample itself once the sample has more than
two decimal places: for x = 1/8 = 0.125 it returns 0.12. -/
theorem calculate_statistics_counterexample :
    (calculate_statistics [1 / 8]).average = some (3 / 25) ∧ (3 / 25 : ℚ) ≠ 1 / 8 := by
  constructor
  · rw [calculate_statistics, if_neg (by simp)]
    have hm : mean [1 / 8] = 1 / 8 := by simp [mean]
    have hfl : ⌊(1 / 8 : ℚ) * 100⌋ = 12 := by
      rw [show (1 / 8 : ℚ) * 100 = 25 / 2 by norm_num, Int.floor_eq_iff]
      exact ⟨by norm_num, by norm_num⟩
    simp only [hm]
    rw [roundq2_eq_tie_even hfl (by norm_num) (by decide)]
    norm_num
  · norm_num

/-- C3 (amended): `calculate_statistics []` is all null;
`calculate_statistics [x]` has average = max = min = round(x, 2) — equal
to x exactly when x is a multiple of 1/100 — and stdev = 0; on every
non-empty list the emitted average/max/min/stdev are multiples of 1/100,
with stdev the rounded sample standard deviation when more than one
sample is present. -/
theorem calculate_statistics_spec :
    (calculate_statistics [] = ⟨none, none, none, none⟩) ∧
    (∀ x : ℚ, calculate_statistics [x] =
      ⟨some (roundq2 x), some (roundq2 x), some (roundq2 x), some 0⟩) ∧
    (∀ k : ℤ, roundq2 ((k : ℚ) / 100) = (k : ℚ) / 100) ∧
    (∀ l : List ℚ, l ≠ [] →
      (∃ a, (calculate_statistics l).average = some a ∧ isCent a) ∧
      (∃ b, (calculate_statistics l).max = some b ∧ isCent b) ∧
      (∃ c, (calculate_statistics l).min = some c ∧ isCent c) ∧
      (1 < l.length →
        (calculate_statistics l).stdev = some (roundR2 (Real.sqrt (sampleVariance l))) ∧
        ∃ d, (calculate_statistics l).stdev = some d ∧ isCentR d)) := by
  refine ⟨by rw [calculate_statistics, if_pos rfl], ?_, roundq2_cent, ?_⟩
  · intro x
    rw [calculate_statistics, if_neg (by simp)]
    simp [mean, listMax, listMin]
  · intro l hl
    rw [calculate_statistics, if_neg hl]
    refine ⟨⟨_, rfl, isCent_roundq2 _⟩, ⟨_, rfl, isCent_roundq2 _⟩, ⟨_, rfl, isCent_roundq2 _⟩, ?_⟩
    intro hlen
    have hst : (SegmentStats.mk (some (roundq2 (mean l))) (some (roundq2 (listMax l)))
        (some (roundq2 (listMin l)))
        (some (if 1 < l.length then roundR2 (Real.sqrt (sampleVariance l)) else 0))).stdev =
        some (roundR2 (Real.sqrt (sampleVariance l))) := by
      show some (if 1 < l.length then roundR2 (Real.sqrt (sampleVariance l)) else 0) = _
      rw [if_pos hlen]
    exact ⟨hst, roundR2 (Real.sqrt (sampleVariance l)), hst, isCentR_roundR2 _⟩

/-- Witness for C3 at the concrete list [1, 2]. -/
theorem calculate_statistics_spec_witness :
    (∃ a, (calculate_statistics [1, 2]).average = some a ∧ isCent a) ∧
    (calculate_statistics [1, 2]).stdev = some (roundR2 (Real.sqrt (sampleVariance [1, 2]))) :=
  ⟨(calculate_statistics_spec.2.2.2 [1, 2] (by simp)).1,
    ((calculate_statistics_spec.2.2.2 [1, 2] (by simp)).2.2.2 (by simp)).1⟩

/-- The page of the C4 counterexample: the primary title element is
present but holds only whitespace, while the document title holds
"Widget". -/
def pageEmptyPrimary : Page :=
  ⟨some " ", none, none, some "Widget", none, none, none, none, none, ""⟩

/-- C4 counterexample: the chains do not return the first NON-EMPTY
trimmed match — an earlier present element whose text trims to empty
wins the branch, and the sentinel is used instead of the later
strategy's non-empty value. -/
theorem extract_chain_counterexample :
    pageEmptyPrimary.productTitle = some " " ∧ pyStrip " " = "" ∧
    pageEmptyPrimary.docTitle = some "Widget" ∧
    (extract_product_data pageEmptyPrimary).title = "No Title Found" ∧
    "No Title Found" ≠ "Widget" :=
  ⟨rfl, by decide, rfl, by decide, by decide⟩

/-- C4 (amended): each chain selects the FIRST strategy whose element is
present (pattern matches, for the regex fallback) and returns its
trimmed text; the sentinel default is used exactly when the selected
text is empty or no strategy matched. -/
theorem extract_chain_first_present :
    ∀ p : Page,
      (titleOf p =
        (match [p.productTitle, p.btAsinTitle, p.h1TitleClass, p.docTitle, p.firstH1].findSome? id with
         | some t => pyStrip t
         | none =>
           (match titleRegexSearch p.visibleText with
            | some m => pyStrip m
            | none => ""))) ∧
      (priceOf p =
        (match [p.priceBlock, p.priceWhole, p.priceClass, p.priceBuybox].findSome? id with
         | some t => pyStrip t
         | none =>
           (match priceRegexSearch p.visibleText with
            | some m => m
            | none => ""))) ∧
      (titleOf p ≠ "" → (extract_product_data p).title = titleOf p) ∧
      (titleOf p = "" → (extract_product_data p).title = "No Title Found") ∧
      (priceOf p ≠ "" → (extract_product_data p).price = priceOf p) ∧
      (priceOf p = "" → (extract_product_data p).price = "No Price Found") := by
  intro p
  obtain ⟨t1, t2, t3, t4, t5, q1, q2, q3, q4, vt⟩ := p
  refine ⟨?_, ?_, ?_, ?_, ?_, ?_⟩
  · cases t1 <;> cases t2 <;> cases t3 <;> cases t4 <;> cases t5 <;> rfl
  · cases q1 <;> cases q2 <;> cases q3 <;> cases q4 <;> rfl
  · intro h; simp only [extract_product_data, if_neg h]
  · intro h; simp only [extract_product_data, if_pos h]
  · intro h; simp only [extract_product_data, if_neg h]
  · intro h; simp only [extract_product_data, if_pos h]

/-- The page of the C4 witness: only the document title is present. -/
def pageDocTitleOnly : Page :=
  ⟨none, none, none, some "Widget", none, none, none, none, none, ""⟩

/-- Witness for C4 at a concrete page. -/
theorem extract_chain_first_present_witness :
    (extract_product_data pageDocTitleOnly).title = titleOf pageDocTitleOnly :=
  (extract_chain_first_present pageDocTitleOnly).2.2.1 (by decide)

/-- C5 counterexample: a string price whose stripped form is neither all
digits nor contains a dot is NOT set to null on parse failure — it stays
a string. -/
theorem normalize_price_counterexample :
    normalizePrice (.str "abc") = .str "abc" ∧ JVal.str "abc" ≠ JVal.null :=
  ⟨by decide, by decide⟩

/-- C5 (amended): the Normalizer strips '$' and ',' from a string price;
if the remainder is all digits or contains a dot it is parsed as a
float, null on parse failure; otherwise the price keeps the stripped
string.  Non-string prices pass unchanged, and "$1,299.00" normalizes to
the number 1299. -/
theorem normalize_price_spec :
    (∀ s : String,
      ((pyIsDigit (stripPrice s) || (stripPrice s).toList.contains '.') = true →
        normalizePrice (.str s) =
          (match pyFloat? (stripPrice s) with
           | some q => .num q
           | none => .null)) ∧
      ((pyIsDigit (stripPrice s) || (stripPrice s).toList.contains '.') = false →
        normalizePrice (.str s) = .str (stripPrice s))) ∧
    (∀ q : ℚ, normalizePrice (.num q) = .num q) ∧
    (normalizePrice .null = .null) ∧
    (normalizePrice (.str "$1,299.00") = .num 1299) := by
  have hbr : ∀ s : String,
      ((pyIsDigit (stripPrice s) || (stripPrice s).toList.contains '.') = true →
        normalizePrice (.str s) =
          (match pyFloat? (stripPrice s) with
           | some q => .num q
           | none => .null)) ∧
      ((pyIsDigit (stripPrice s) || (stripPrice s).toList.contains '.') = false →
        normalizePrice (.str s) = .str (stripPrice s)) := by
    intro s
    constructor
    · intro h
      simp only [normalizePrice, h, if_true]
    · intro h
      simp only [normalizePrice, h, Bool.false_eq_true, if_false]
  refine ⟨hbr, fun q => rfl, rfl, ?_⟩
  have hstr : stripPrice "$1,299.00" = "1299.00" := by decide
  have h1 := (hbr "$1,299.00").1 (by decide)
  rw [h1, hstr]
  have hp : pyFloatParts? "1299.00" = some (1, 1299, 0, 2, 0) := by decide
  have hf : pyFloat? "1299.00" = some 1299 := by
    rw [pyFloat?, hp]
    simp only [Option.map, Option.some.injEq]
    norm_num
  rw [hf]

/-- Witness for C5: both guard branches at concrete strings
("1.2.3" passes the guard and fails the parse; "No Price Found" fails
the guard). -/
theorem normalize_price_spec_witness :
    normalizePrice (.str "1.2.3") = .null ∧
    normalizePrice (.str "No Price Found") = .str "No Price Found" := by
  constructor
  · have h := (normalize_price_spec.1 "1.2.3").1 (by decide)
    rw [h, show pyFloat? (stripPrice "1.2.3") = none from by decide]
  · have h := (normalize_price_spec.1 "No Price Found").2 (by decide)
    rw [h, show stripPrice "No Price Found" = "No Price Found" from by decide]

/-- C6: over years sorted ascending, for each consecutive pair and tier
with both averages present and a nonzero previous average, the recorded
rate is round((curr - prev)/prev*100, 2); a sentence reporting an
increase by the rounded rate is appended when the rate is positive, a
decrease by the rounded absolute rate when negative, and nothing when
the rate is exactly zero; otherwise null is recorded and no sentence
appended.  Averages 100 → 150 give an increase of 50.0 and 150 → 100 a
decrease of 33.33. -/
theorem inflation_step_spec :
    (∀ (py cy : String) (seg : Tier) (p c : ℚ), p ≠ 0 →
      inflationValue (some p) (some c) = some (roundq2 ((c - p) / p * 100)) ∧
      (0 < (c - p) / p * 100 →
        sentenceFor py cy seg (some p) (some c) =
          some (.increased py cy (roundq2 ((c - p) / p * 100)) seg)) ∧
      ((c - p) / p * 100 < 0 →
        sentenceFor py cy seg (some p) (some c) =
          some (.decreased py cy (roundq2 |(c - p) / p * 100|) seg)) ∧
      ((c - p) / p * 100 = 0 → sentenceFor py cy seg (some p) (some c) = none)) ∧
    (∀ (py cy : String) (seg : Tier) (prev curr : Option ℚ),
      prev = none ∨ curr = none ∨ prev = some 0 →
      inflationValue prev curr = none ∧ sentenceFor py cy seg prev curr = none) ∧
    (∀ years : List String, List.Sorted (fun a b => a ≤ b) (sortedYears years)) ∧
    (sentenceFor "2022" "2023" .low (some 100) (some 150) =
      some (.increased "2022" "2023" 50 .low)) ∧
    (sentenceFor "2022" "2023" .low (some 150) (some 100) =
      some (.decreased "2022" "2023" (3333 / 100) .low)) := by
  refine ⟨?_, ?_, ?_, ?_, ?_⟩
  · intro py cy seg p c hp
    refine ⟨?_, ?_, ?_, ?_⟩
    · simp only [inflationValue]
      rw [if_pos hp]
    · intro hr
      simp only [sentenceFor]
      rw [if_pos hp, if_pos hr]
    · intro hr
      simp only [sentenceFor]
      rw [if_pos hp, if_neg (not_lt.2 (le_of_lt hr)), if_pos hr]
    · intro hr
      simp only [sentenceFor]
      rw [if_pos hp, if_neg (by rw [hr]; exact lt_irrefl _), if_neg (by rw [hr]; exact lt_irrefl _)]
  · intro py cy seg prev curr h
    rcases h with rfl | rfl | rfl
    · cases curr <;> exact ⟨rfl, rfl⟩
    · cases prev <;> exact ⟨rfl, rfl⟩
    · cases curr with
      | none => exact ⟨rfl, rfl⟩
      | some c =>
        constructor
        · simp only [inflationValue]
          rw [if_neg (by simp)]
        · simp only [sentenceFor]
          rw [if_neg (by simp)]
  · intro years
    exact List.sorted_insertionSort _ years
  · simp only [sentenceFor]
    rw [if_pos (by norm_num : (100 : ℚ) ≠ 0),
      show ((150 : ℚ) - 100) / 100 * 100 = 50 by norm_num,
      if_pos (by norm_num : (0 : ℚ) < 50),
      show (50 : ℚ) = ((5000 : ℤ) : ℚ) / 100 by norm_num, roundq2_cent]
  · simp only [sentenceFor]
    rw [if_pos (by norm_num : (150 : ℚ) ≠ 0),
      show ((100 : ℚ) - 150) / 150 * 100 = -(100 / 3) by norm_num,
      if_neg (by norm_num), if_pos (by norm_num),
      show |(-(100 / 3) : ℚ)| = 100 / 3 by rw [abs_neg, abs_of_pos] <;> norm_num]
    have hfl : ⌊(100 / 3 : ℚ) * 100⌋ = 3333 := by
      rw [show (100 / 3 : ℚ) * 100 = 10000 / 3 by norm_num, Int.floor_eq_iff]
      exact ⟨by norm_num, by norm_num⟩
    rw [roundq2_eq_down hfl (by norm_num)]
    norm_num

/-- Witness for C6 at concrete averages. -/
theorem inflation_step_spec_witness :
    inflationValue (some 100) (some 150) = some (roundq2 ((150 - 100) / 100 * 100)) ∧
    inflationValue none (some 5) = none :=
  ⟨(inflation_step_spec.1 "2022" "2023" Tier.low 100 150 (by norm_num)).1,
    (inflation_step_spec.2.1 "2022" "2023" Tier.low none (some 5) (Or.inl rfl)).1⟩

/-- C7 counterexample: a current-year average of zero with a non-null,
nonzero prior average is recorded as -100.0, not null. -/
theorem inflation_curr_zero_counterexample :
    inflationValue (some 100) (some 0) = some (-100) ∧
    (some (-100 : ℚ) ≠ (none : Option ℚ)) := by
  constructor
  · simp only [inflationValue]
    rw [if_pos (by norm_num : (100 : ℚ) ≠ 0),
      show ((0 : ℚ) - 100) / 100 * 100 = ((-10000 : ℤ) : ℚ) / 100 by norm_num, roundq2_cent]
    norm_num
  · simp

/-- C7 (amended): the recorded inflation value is null exactly when the
previous average is null, the current average is null, or the previous
average is zero; in every other case a numeric rate is recorded (a zero
current average with nonzero previous average gives -100.0). -/
theorem inflation_null_iff :
    ∀ prev curr : Option ℚ,
      inflationValue prev curr = none ↔ prev = none ∨ curr = none ∨ prev = some 0 := by
  intro prev curr
  cases prev with
  | none => cases curr <;> simp [inflationValue]
  | some p =>
    cases curr with
    | none => simp [inflationValue]
    | some c =>
      simp only [inflationValue]
      by_cases hp : p = 0
      · subst hp
        rw [if_neg (by simp)]
        simp
      · rw [if_pos hp]
        simp [hp]

/-- C8: inside `clean_data` only JSON decode errors are isolated per
line (a malformed line is skipped and processing continues); a
well-formed record lacking the title key raises an uncaught KeyError
that aborts the whole stage, producing no output list, wherever the
record occurs. -/
theorem missing_title_aborts_cleaning :
    (∀ (pd : String → Option String) (rest : List (Option Item)),
      clean_data pd (none :: rest) = clean_data pd rest) ∧
    (∀ (pd : String → Option String) (xs ys : List (Option Item)) (it : Item),
      it.title = none → clean_data pd (xs ++ some it :: ys) = .error ()) := by
  constructor
  · intro pd rest
    rfl
  · intro pd xs ys it ht
    induction xs with
    | nil =>
      have hpi : processItem pd it = .error () := by
        simp only [processItem, normalizeItem, ht]
      simp only [List.nil_append, clean_data, hpi]
    | cons l ls ih =>
      cases l with
      | none =>
        simpa only [List.cons_append, clean_data] using ih
      | some itm =>
        simp only [List.cons_append, clean_data, List.append_eq]
        cases hpi : processItem pd itm with
        | error e =>
          cases e
          rfl
        | ok keep =>
          rw [ih]

/-- Witness for C8: a survivor followed by a title-less record aborts
the whole stage. -/
theorem missing_title_aborts_cleaning_witness :
    clean_data (fun _ => none)
      [some ⟨some "Widget", some (.num 150), none⟩, some ⟨none, none, none⟩] = .error () :=
  missing_title_aborts_cleaning.2 (fun _ => none)
    [some ⟨some "Widget", some (.num 150), none⟩] [] ⟨none, none, none⟩ rfl

/-- C9: `extract_product_data` always returns non-empty title and price
strings (the sentinels fill any miss), so the extraction stage's
emptiness check `any(product_data.values())` always passes and its drop
branch is unreachable. -/
theorem extracted_fields_nonempty :
    ∀ (parseFixed : String → Option String) (p : Page) (url : String) (ft : Option String),
      (extract_product_data p).title ≠ "" ∧
      (extract_product_data p).price ≠ "" ∧
      anyValues (buildProductData parseFixed p url ft) = true := by
  intro parseFixed p url ft
  have ht : (extract_product_data p).title ≠ "" := by
    simp only [extract_product_data]
    by_cases h : titleOf p = ""
    · rw [if_pos h]; simp
    · rw [if_neg h]; exact h
  have hpr : (extract_product_data p).price ≠ "" := by
    simp only [extract_product_data]
    by_cases h : priceOf p = ""
    · rw [if_pos h]; simp
    · rw [if_neg h]; exact h
  refine ⟨ht, hpr, ?_⟩
  simp only [anyValues, buildProductData, Bool.or_eq_true, bne_iff_ne]
  exact Or.inl (Or.inl (Or.inl ht))

/-- The price conjunct of the filter is false on every string price. -/
theorem keepItem_str_price_false (t s : String) : keepItem t (some (.str s)) = false := by
  simp [keepItem, priceOk]

/-- Every item of a successful `clean_data` run has a non-string price
field. -/
theorem clean_data_ok_price_not_str :
    ∀ (pd : String → Option String) (lines : List (Option Item)) (out : List Item),
      clean_data pd lines = .ok out → ∀ it ∈ out, ∀ s, it.price ≠ some (.str s) := by
  intro pd lines
  induction lines with
  | nil =>
    intro out hout it hit s
    simp only [clean_data, Except.ok.injEq] at hout
    subst hout
    simp at hit
  | cons l ls ih =>
    intro out hout it hit s
    cases l with
    | none => exact ih out hout it hit s
    | some itm =>
      simp only [clean_data] at hout
      cases hpi : processItem pd itm with
      | error e => rw [hpi] at hout; exact Except.noConfusion hout
      | ok keep =>
        rw [hpi] at hout
        cases hcd : clean_data pd ls with
        | error e => rw [hcd] at hout; exact Except.noConfusion hout
        | ok out2 =>
          rw [hcd] at hout
          have hout2 := Except.ok.inj hout
          cases keep with
          | none =>
            have : out2 = out := hout2
            subst this
            exact ih out2 hcd it hit s
          | some x =>
            have hxo : x :: out2 = out := hout2
            subst hxo
            rcases List.mem_cons.1 hit with rfl | hin
            · -- the head survived the filter, so its price is not a string
              intro hps
              simp only [processItem] at hpi
              cases hti : (normalizeItem pd itm).title with
              | none => rw [hti] at hpi; exact Except.noConfusion hpi
              | some t =>
                rw [hti] at hpi
                have hif := Except.ok.inj hpi
                by_cases hk : keepItem t (normalizeItem pd itm).price = true
                · rw [if_pos hk] at hif
                  have hxeq : normalizeItem pd itm = it := Option.some.inj hif
                  rw [hxeq, hps, keepItem_str_price_false] at hk
                  exact Bool.noConfusion hk
                · rw [if_neg hk] at hif
                  exact Option.noConfusion hif
            · exact ih out2 hcd it hin s

/-- C10: the price sentinel "No Price Found" fails the normalization
guard (not all digits, no dot), stays a string, and every string price
is rejected by the filter, so no record of a successful cleaning output
carries the exhausted-price sentinel. -/
theorem sentinel_price_filtered :
    (normalizePrice (.str "No Price Found") = .str "No Price Found") ∧
    (∀ t s : String, keepItem t (some (.str s)) = false) ∧
    (∀ (pd : String → Option String) (lines : List (Option Item)) (out : List Item),
      clean_data pd lines = .ok out → ∀ it ∈ out, it.price ≠ some (.str "No Price Found")) := by
  refine ⟨by decide, keepItem_str_price_false, ?_⟩
  intro pd lines out hout it hit
  exact clean_data_ok_price_not_str pd lines out hout it hit "No Price Found"

/-- Witness for C10 on a concrete successful run. -/
theorem sentinel_price_filtered_witness :
    (⟨some "Widget", some (.num 150), none⟩ : Item).price ≠ some (.str "No Price Found") :=
  sentinel_price_filtered.2.2 (fun _ => none)
    [some ⟨some "Widget", some (.num 150), none⟩]
    [⟨some "Widget", some (.num 150), none⟩] rfl
    ⟨some "Widget", some (.num 150), none⟩ (by simp)
